import Mathlib

/-!
Shallow embedding of `starter/starter.go` from the etcd-starter repository.

The starter decides which etcd version ("internal version") to exec before
handing the process over.  Pure control flow is translated directly; the
external collaborators (the wal version classifier, the legacy-format
decoders of the vendored `migrate` package, the HTTP client and the
discovery client) are modelled as oracles collected in a `World` record,
so every function here is a pure function of the configuration and that
world.
-/

namespace EtcdStarter

/-- The `version` string constants of starter.go (`internalV1`, `internalV2`,
`internalV2Proxy`, `internalUnknown`). -/
inductive InternalVersion where
  | internalV1
  | internalV2
  | internalV2Proxy
  | internalUnknown
deriving DecidableEq, Repr

open InternalVersion

/-- The values `wal.DetectVersion` can return (the vendored wal package
enumerates exactly these six). -/
inductive WalVersion where
  | WALv0_4
  | WALv2_0
  | WALv2_0Proxy
  | WALv2_0_1
  | WALNotExist
  | WALUnknown
deriving DecidableEq, Repr

/-- The flag values the starter reads out of the parsed `flag.FlagSet`
(every lookup in starter.go is `fs.Lookup(name).Value.String()`; an unset
flag reads as `""`). -/
structure FlagSet where
  initialCluster : String
  listenPeerUrls : String
  listenClientUrls : String
  proxy : String
  dataDir : String
  discovery : String
  peers : String
  caFile : String
  certFile : String
  keyFile : String
  peerCAFile : String
  peerCertFile : String
  peerKeyFile : String
deriving DecidableEq, Repr

/-- The list `v2SpecialFlags` from starter.go. -/
def v2SpecialFlags : List String :=
  ["initial-cluster", "listen-peer-urls", "listen-client-urls", "proxy"]

/-- Lookup `fs.Lookup(name).Value.String()` restricted to the names starter.go
looks up among the v2-only keys. -/
def FlagSet.lookup (fs : FlagSet) : String → String
  | "initial-cluster" => fs.initialCluster
  | "listen-peer-urls" => fs.listenPeerUrls
  | "listen-client-urls" => fs.listenClientUrls
  | "proxy" => fs.proxy
  | _ => ""

/-- The loop at the top of `checkInternalVersion`: some v2-only key has a
non-empty value. -/
def hasV2SpecialFlag (fs : FlagSet) : Bool :=
  v2SpecialFlags.any (fun name => fs.lookup name != "")

/-- Modelled from the spec: the `TLSInfo` helper type lives in a file of this
repository that is not under src/ (starter.go references it unqualified).
Per the spec it carries the TLS material (CA/cert/key) and yields the
configured scheme for building peer URLs; as in etcd's transport package the
scheme is https exactly when both cert and key are configured. -/
structure TLSInfo where
  caFile : String
  certFile : String
  keyFile : String
deriving DecidableEq, Repr

/-- Modelled from the spec: `TLSInfo.Scheme()`. -/
def TLSInfo.scheme (t : TLSInfo) : String :=
  if t.certFile ≠ "" ∧ t.keyFile ≠ "" then "https" else "http"

/-- Function `clientTLSInfo` from starter.go. -/
def clientTLSInfo (fs : FlagSet) : TLSInfo :=
  ⟨fs.caFile, fs.certFile, fs.keyFile⟩

/-- Function `peerTLSInfo` from starter.go. -/
def peerTLSInfo (fs : FlagSet) : TLSInfo :=
  ⟨fs.peerCAFile, fs.peerCertFile, fs.peerKeyFile⟩

/-! Models of the Go standard-library string helpers the starter calls
(`strings.Split` with separator `","`, `strings.TrimSpace`, and `fmt`'s
`%v` rendering of a string slice).  These are external collaborators, so
they are given direct structural definitions with Go's semantics. -/

/-- Model of `strings.Split(s, ",")` on the character list: Go returns one (possibly
empty) field per separator, and `[""]` for the empty string. -/
def splitCommaChars : List Char → List (List Char)
  | [] => [[]]
  | c :: rest =>
    if c = ',' then [] :: splitCommaChars rest
    else
      match splitCommaChars rest with
      | g :: gs => (c :: g) :: gs
      | [] => [[c]]

/-- Whitespace as trimmed by Go's `strings.TrimSpace` (ASCII part). -/
def isGoSpace (c : Char) : Bool :=
  c = ' ' || c = '\t' || c = '\n' || c = '\r' || c = '\x0b' || c = '\x0c'

/-- Model of `strings.TrimSpace`. -/
def goTrimSpace (s : String) : String :=
  ⟨((s.data.dropWhile isGoSpace).reverse.dropWhile isGoSpace).reverse⟩

/-- Function `trimSplit` from starter.go; the only call site uses separator `","`. -/
def trimSplit (s : String) : List String :=
  ((splitCommaChars s.data).map (fun g => String.mk g)).map goTrimSpace

/-- Function `getPeersFromPeersFlag` from starter.go: split the flag on commas and
prefix every field with the configured scheme. -/
def getPeersFromPeersFlag (str : String) (tls : TLSInfo) : List String :=
  (trimSplit str).map (fun p => tls.scheme ++ "://" ++ p)

/-- Space-separated rendering of a list of strings, as inside Go's `%v`. -/
def sepSpace : List String → String
  | [] => ""
  | [x] => x
  | x :: y :: rest => x ++ " " ++ sepSpace (y :: rest)

/-- Go `fmt`'s `%v` rendering of a `[]string`. -/
def goFormatStrSlice (l : List String) : String :=
  "[" ++ sepSpace l ++ "]"

/-- The error produced when every candidate URL was exhausted:
`fmt.Errorf("failed to get version from urls %v", urls)`. -/
def failedMsg (urls : List String) : String :=
  "failed to get version from urls " ++ goFormatStrSlice urls

/-! The peer version probe.  One `GET <url>/version` plus body read plus
`json.Unmarshal` is modelled as a single oracle answer. -/

/-- Outcome of fetching and parsing `<url>/version`: request error, body
read error, unparsable JSON body, or a parsed map whose
`internalVersion` entry is the given string (`""` when the key is absent,
as for a Go map lookup). -/
inductive VersionResp where
  | reqErr
  | readErr
  | unparsable
  | fields (internalVersion : String)
deriving DecidableEq, Repr

/-- The informative content of one probe answer: the switch on
`m["internalVersion"]` in `checkInternalVersionByClientURLs` recognizes
exactly `"1"` and `"2"`; everything else is skipped. -/
def informativeOf : VersionResp → Option InternalVersion
  | .fields s => if s = "1" then some internalV1 else if s = "2" then some internalV2 else none
  | _ => none

/-! The legacy (v0.4) store: snapshot and command-log inspection. -/

/-- A node of the decoded v0.4 store state (`migrate.Store4`'s node type):
a value and a `Children` map, modelled as an association list.  A missing
key yields a nil pointer in Go, i.e. `none` here. -/
inductive Node where
  | mk (value : String) (children : List (String × Node))

/-- The node's value. -/
def Node.value : Node → String
  | .mk v _ => v

/-- The node's children. -/
def Node.children : Node → List (String × Node)
  | .mk _ c => c

/-- Go map indexing `n.Children[k]`: `none` models the nil pointer returned
for a missing key. -/
def lookupChild (n : Node) (k : String) : Option Node :=
  (n.children.find? (fun p => p.1 == k)).map (fun p => p.2)

/-- The decoded `migrate.Store4`: `Root` is a pointer, hence optional. -/
structure Store4 where
  root : Option Node

/-- Result of `migrate.DecodeLatestSnapshot4FromDir` followed by
`json.Unmarshal` of the snapshot's `State`: a decode error, no snapshot
(`snap4 == nil`), or a snapshot whose state unmarshals to a `Store4` or
fails. -/
inductive SnapResult where
  | decodeErr (e : String)
  | noSnap
  | snap (st : Except String Store4)

/-- A log entry as seen through `migrate.NewCommand4` and the type switch
in `checkInternalVersionByDataDir4`: a `*migrate.SetCommand` with its key
and value, or any other command kind. -/
inductive Cmd where
  | set (key : String) (value : String)
  | other
deriving DecidableEq, Repr

/-- The decode results for one legacy data directory: the snapshot stage and
the command log (`migrate.DecodeLog4FromFile` may fail; each entry's
`migrate.NewCommand4` may fail). -/
structure DataDir4 where
  snap : SnapResult
  log : Except String (List (Except String Cmd))

/-- Result of `checkInternalVersionByDataDir4`: a version, a returned error,
or a nil-pointer-dereference runtime panic. -/
inductive Res4 where
  | ok (v : InternalVersion)
  | err (e : String)
  | panicked
deriving DecidableEq, Repr

/-- Does a parsed command match
`setcmd.Key == "/_etcd/next-internal-version" && setcmd.Value == "2"`? -/
def cmdMatches : Cmd → Bool
  | .set k v => k == "/_etcd/next-internal-version" && v == "2"
  | .other => false

/-- The verdict of the snapshot stage of `checkInternalVersionByDataDir4`:
surface a decode error, nil-panic (when `st.Root` is nil or the `_etcd`
child is missing, `dir.Children` dereferences a nil pointer), report the
migration marker, or fall through to the log stage. -/
inductive SnapVerdict where
  | err (e : String)
  | nilPanic
  | migrated
  | fallThrough
deriving DecidableEq, Repr

/-- The snapshot stage: decode the latest v0.4 snapshot, unmarshal its
state, follow `st.Root.Children["_etcd"]` and look up
`"next-internal-version"`; the entry with value `"2"` means migrated. -/
def snapVerdict : SnapResult → SnapVerdict
  | .decodeErr e => .err e
  | .noSnap => .fallThrough
  | .snap (.error e) => .err e
  | .snap (.ok st) =>
    match st.root with
    | none => .nilPanic
    | some root =>
      match lookupChild root "_etcd" with
      | none => .nilPanic
      | some dir =>
        match lookupChild dir "next-internal-version" with
        | some n => if n.value = "2" then .migrated else .fallThrough
        | none => .fallThrough

/-- The loop over the decoded v0.4 log entries: a `NewCommand4` error is
returned; a matching set command yields v2; otherwise keep scanning, and
an exhausted log yields v1. -/
def scanCmds : List (Except String Cmd) → Res4
  | [] => .ok internalV1
  | .error e :: _ => .err e
  | .ok c :: rest => if cmdMatches c then .ok internalV2 else scanCmds rest

/-- The log stage of `checkInternalVersionByDataDir4`. -/
def checkLog : Except String (List (Except String Cmd)) → Res4
  | .error e => .err e
  | .ok ents => scanCmds ents

/-- Function `checkInternalVersionByDataDir4` from starter.go. -/
def checkInternalVersionByDataDir4 (dd : DataDir4) : Res4 :=
  match snapVerdict dd.snap with
  | .err e => .err e
  | .nilPanic => .panicked
  | .migrated => .ok internalV2
  | .fallThrough => checkLog dd.log

/-! The standby marker. -/

/-- The decoded `migrate.StandbyInfo4`, through the accessors starter.go
uses (`Running`, `ClientURLs()`, `InitialCluster()`). -/
structure StandbyInfo where
  running : Bool
  clientURLs : List String
  initialCluster : String
deriving DecidableEq, Repr

/-- Result of `migrate.DecodeStandbyInfo4FromFile`: success (possibly with a
nil info), a not-exist error (tolerated: the code proceeds with a nil
info), or any other error. -/
inductive StandbyDecode where
  | ok (si : Option StandbyInfo)
  | errNotExist
  | errOther (e : String)

/-- The world of external collaborators one resolution runs against:
the wal classifier, the standby decoder, the legacy-store decoders, client
construction (`newDefaultClient`, which can fail for https), the network
(`/version` probes and `/etcdURL` fetches by full URL), the discovery
lookup for a non-empty discovery URL, and whether `os.Stat` on the
standby-marker path succeeds. -/
structure World where
  detect : Except String WalVersion
  standby : StandbyDecode
  dd4 : DataDir4
  clientErr : TLSInfo → Option String
  versionResp : String → VersionResp
  etcdURLResp : String → Option String
  discoveryPeers : String → Except String (List String)
  standbyFileExists : Bool

/-- Function `getPeersFromDiscoveryURL` from starter.go: an empty discovery URL
yields no peers and no error; otherwise the discovery client collaborator
answers (its internal filtering of `_config`/`_state` children happens
inside the oracle). -/
def getPeersFromDiscoveryURL (w : World) (discoverURL : String) : Except String (List String) :=
  if discoverURL = "" then .ok [] else w.discoveryPeers discoverURL

/-- Function `getClientURLsByPeerURLs` from starter.go: a client-construction error
prints and returns nil; otherwise each peer's `<peer>/etcdURL` body (when
the request and read succeed) becomes a client URL. -/
def getClientURLsByPeerURLs (w : World) (peers : List String) (tls : TLSInfo) : List String :=
  match w.clientErr tls with
  | some _ => []
  | none => peers.filterMap (fun u => w.etcdURLResp (u ++ "/etcdURL"))

/-- The candidate loop of `checkInternalVersionByClientURLs`: first
informative `/version` answer wins. -/
def scanVersions (w : World) : List String → Option InternalVersion
  | [] => none
  | u :: rest =>
    match informativeOf (w.versionResp (u ++ "/version")) with
    | some v => some v
    | none => scanVersions w rest

/-- Function `checkInternalVersionByClientURLs` from starter.go. -/
def checkInternalVersionByClientURLs (w : World) (urls : List String) (tls : TLSInfo) :
    Except String InternalVersion :=
  match w.clientErr tls with
  | some e => .error e
  | none =>
    match scanVersions w urls with
    | some v => .ok v
    | none => .error (failedMsg urls)

/-- The side effects `checkInternalVersion` performs besides returning a
version: `osutil.Unsetenv("ETCD_DISCOVERY")` and the append to the
process's own `os.Args` (note: `os.Args`, not the `args` parameter that
`StartDesiredVersion` later execs with). -/
structure Effects where
  unsetDiscovery : Bool
  osArgsAppended : List String
deriving DecidableEq, Repr

/-- No side effects. -/
def noEffects : Effects := ⟨false, []⟩

/-- Result of `checkInternalVersion`: a version plus effects, a
`log.Fatalf` termination, or a runtime panic. -/
inductive CheckResult where
  | ok (v : InternalVersion) (eff : Effects)
  | fatal (msg : String)
  | panicked (msg : String)
deriving DecidableEq, Repr

/-- The candidate client URLs assembled in the `wal.WALNotExist` branch:
discovery peers (nil on discovery error) plus the static peers flag, each
resolved through `<peer>/etcdURL`. -/
def absentBranchURLs (fs : FlagSet) (w : World) : List String :=
  let dpeers := match getPeersFromDiscoveryURL w fs.discovery with
    | .ok ps => ps
    | .error _ => []
  let ppeers := getPeersFromPeersFlag fs.peers (peerTLSInfo fs)
  getClientURLsByPeerURLs w (dpeers ++ ppeers) (peerTLSInfo fs)

/-- The `wal.WALv0_4` branch when not in standby mode: inspect the legacy
store; an error degrades to v1 (with a log line); a nil dereference inside
`checkInternalVersionByDataDir4` is a runtime panic. -/
def v04NonStandby (w : World) : CheckResult :=
  match checkInternalVersionByDataDir4 w.dd4 with
  | .panicked => .panicked "runtime error: invalid memory address or nil pointer dereference"
  | .err _ => .ok internalV1 noEffects
  | .ok v => .ok v noEffects

/-- Function `checkInternalVersion` from starter.go. -/
def checkInternalVersion (fs : FlagSet) (w : World) : CheckResult :=
  if hasV2SpecialFlag fs then .ok internalV2 noEffects
  else if fs.dataDir = "" then .ok internalV2 noEffects
  else
    match w.detect with
    | .error e =>
      .fatal ("etcd-starter: failed to detect etcd version in " ++ fs.dataDir ++ ": " ++ e)
    | .ok .WALv2_0 => .ok internalV2 noEffects
    | .ok .WALv2_0_1 => .ok internalV2 noEffects
    | .ok .WALv2_0Proxy => .ok internalV2Proxy noEffects
    | .ok .WALv0_4 =>
      match w.standby with
      | .errOther _ => .ok internalV1 noEffects
      | .errNotExist => v04NonStandby w
      | .ok none => v04NonStandby w
      | .ok (some si) =>
        if si.running then
          match checkInternalVersionByClientURLs w si.clientURLs (clientTLSInfo fs) with
          | .error _ => .ok internalV1 noEffects
          | .ok v =>
            if v = internalV2 then
              .ok internalV2Proxy ⟨true, ["-initial-cluster", si.initialCluster]⟩
            else .ok v noEffects
        else v04NonStandby w
    | .ok .WALNotExist =>
      match checkInternalVersionByClientURLs w (absentBranchURLs fs w) (clientTLSInfo fs) with
      | .error _ => .ok internalV2 noEffects
      | .ok v => .ok v noEffects
    | .ok .WALUnknown => .ok internalV2 noEffects

/-- Result of `StartDesiredVersion`: an exec of `path` with argument vector
`argv` (`argv.head` is the path itself), with `proxyDiag` recording whether
the standby-info diagnostic lines were printed and `eff` the effects
accumulated during resolution; or an early return on a config-parse error;
or a fatal/panic termination. -/
inductive StartResult where
  | exec (path : String) (argv : List String) (proxyDiag : Bool) (eff : Effects)
  | parseErr
  | fatal (msg : String)
  | panicked (msg : String)
deriving DecidableEq, Repr

/-- Function `StartDesiredVersion` from starter.go, up to the `syscall.Exec` call
(`path.Join` on clean components is plain concatenation).  In the
`internalV2Proxy` case the diagnostic is printed when `os.Stat` on the
standby-info path returns an error, and `-proxy=on` is appended to `args`
unconditionally.  Note the exec's argv is built from the `args` parameter;
the `os.Args` append recorded in `eff` does not flow into it. -/
def startDesiredVersion (binDir : String) (args : List String)
    (parsed : Except String FlagSet) (w : World) : StartResult :=
  match parsed with
  | .error _ => .parseErr
  | .ok fs =>
    match checkInternalVersion fs w with
    | .fatal m => .fatal m
    | .panicked m => .panicked m
    | .ok ver eff =>
      match ver with
      | internalV1 =>
        .exec (binDir ++ "/1/etcd") ((binDir ++ "/1/etcd") :: args) false eff
      | internalV2 =>
        .exec (binDir ++ "/2/etcd") ((binDir ++ "/2/etcd") :: args) false eff
      | internalV2Proxy =>
        .exec (binDir ++ "/2/etcd") ((binDir ++ "/2/etcd") :: (args ++ ["-proxy=on"]))
          (!w.standbyFileExists) eff
      | internalUnknown => .panicked "etcd-starter: unhandled start version"

/-! Shared concrete values for instantiating theorems. -/

/-- Empty TLS material (scheme http). -/
def tlsEmpty : TLSInfo := ⟨"", "", ""⟩

/-- A legacy data directory with no snapshot and an empty log. -/
def emptyDD4 : DataDir4 := ⟨.noSnap, .ok []⟩

/-- A world with no local legacy data, no reachable network, and no
standby-info file. -/
def baseWorld : World :=
  ⟨.ok .WALNotExist, .errNotExist, emptyDD4, fun _ => none, fun _ => .reqErr,
   fun _ => none, fun _ => .error "discovery unreachable", false⟩

/-- A flag set with every v2-only key empty. -/
def plainFS (dataDir discovery peers : String) : FlagSet :=
  ⟨"", "", "", "", dataDir, discovery, peers, "", "", "", "", "", ""⟩

/-! Shared helper lemmas. -/

/-- The log scan can only return a version or a decode error, never the
nil-dereference panic. -/
theorem scanCmds_ne_panicked (ents : List (Except String Cmd)) :
    scanCmds ents ≠ Res4.panicked := by
  induction ents with
  | nil => simp [scanCmds]
  | cons e rest ih =>
    cases e with
    | error msg => simp [scanCmds]
    | ok c =>
      simp only [scanCmds]
      split
      · simp
      · exact ih

/-- The log stage never panics. -/
theorem checkLog_ne_panicked (l : Except String (List (Except String Cmd))) :
    checkLog l ≠ Res4.panicked := by
  cases l with
  | error e => simp [checkLog]
  | ok ents => exact scanCmds_ne_panicked ents

/-- Go's `strings.Split` never returns an empty slice. -/
theorem splitCommaChars_ne_nil (l : List Char) : splitCommaChars l ≠ [] := by
  induction l with
  | nil => simp [splitCommaChars]
  | cons c rest ih =>
    simp only [splitCommaChars]
    split
    · simp
    · cases h : splitCommaChars rest with
      | nil => simp
      | cons g gs => simp

/-- C1: if any of the four v2-only keys (initial-cluster, listen-peer-urls,
listen-client-urls, proxy) has a non-empty value, `checkInternalVersion`
resolves to v2 immediately, for every world (hence regardless of the
data-directory path or its contents) and with no side effects. -/
theorem c1_v2_special_flags_override (fs : FlagSet) (w : World)
    (h : fs.initialCluster ≠ "" ∨ fs.listenPeerUrls ≠ "" ∨
         fs.listenClientUrls ≠ "" ∨ fs.proxy ≠ "") :
    checkInternalVersion fs w = CheckResult.ok internalV2 noEffects := by
  have hv : hasV2SpecialFlag fs = true := by
    simp only [hasV2SpecialFlag, v2SpecialFlags, List.any_cons, List.any_nil,
      FlagSet.lookup, Bool.or_eq_true, bne_iff_ne]
    tauto
  simp [checkInternalVersion, hv]

/-- C1 witness: a configuration with only `initial-cluster` set resolves to
v2 against a world whose data directory is a populated legacy store. -/
theorem c1_v2_special_flags_override_witness :
    checkInternalVersion ⟨"node1=http://10.0.0.1:2380", "", "", "", "dir", "", "", "", "", "", "", "", ""⟩
      ⟨.ok .WALv0_4, .errNotExist, emptyDD4, fun _ => none, fun _ => .reqErr,
       fun _ => none, fun _ => .error "x", false⟩ = CheckResult.ok internalV2 noEffects :=
  c1_v2_special_flags_override _ _ (Or.inl (by decide))

/-- C9: `getPeersFromPeersFlag` returns one peer per comma-separated field
of the flag, each prefixed with the configured scheme and `"://"`; it never
returns an empty list, and on the empty string it returns the one-element
list holding just the scheme prefix. -/
theorem c9_peers_flag_shape (s : String) (tls : TLSInfo) :
    getPeersFromPeersFlag s tls = (trimSplit s).map (fun p => tls.scheme ++ "://" ++ p) ∧
    getPeersFromPeersFlag s tls ≠ [] ∧
    getPeersFromPeersFlag "" tls = [tls.scheme ++ "://"] := by
  refine ⟨rfl, ?_, ?_⟩
  · simp only [getPeersFromPeersFlag, trimSplit, ne_eq, List.map_eq_nil_iff]
    exact splitCommaChars_ne_nil s.data
  · have h : trimSplit "" = [""] := rfl
    simp [getPeersFromPeersFlag, h, String.append_empty]

/-- C10: in the snapshot stage of the migration inspector, if the decoded
state's root exists and its children contain an `_etcd` entry, the
dereference of the `_etcd` lookup cannot hit the nil branch: the inspector
never panics under that precondition.  Conversely, on a decodable snapshot
whose root lacks the `_etcd` child, the nil dereference is reached. -/
theorem c10_snapshot_etcd_lookup_safe :
    (∀ (dd : DataDir4) (st : Store4) (root dir : Node),
      dd.snap = SnapResult.snap (Except.ok st) → st.root = some root →
      lookupChild root "_etcd" = some dir →
      checkInternalVersionByDataDir4 dd ≠ Res4.panicked) ∧
    checkInternalVersionByDataDir4
      ⟨SnapResult.snap (Except.ok ⟨some (Node.mk "" [("x", Node.mk "" [])])⟩), Except.ok []⟩ =
      Res4.panicked := by
  constructor
  · intro dd st root dir hsnap hroot hdir
    unfold checkInternalVersionByDataDir4
    rw [hsnap]
    simp only [snapVerdict, hroot, hdir]
    cases hn : lookupChild dir "next-internal-version" with
    | none => simpa using checkLog_ne_panicked dd.log
    | some n =>
      by_cases hval : n.value = "2"
      · simp [hval]
      · simpa [hval] using checkLog_ne_panicked dd.log
  · rfl

/-- C10 witness: a snapshot whose root has an (empty) `_etcd` child is
inspected without panicking. -/
theorem c10_snapshot_etcd_lookup_safe_witness :
    checkInternalVersionByDataDir4
      ⟨SnapResult.snap (Except.ok ⟨some (Node.mk "" [("_etcd", Node.mk "" [])])⟩), Except.ok []⟩ ≠
      Res4.panicked :=
  c10_snapshot_etcd_lookup_safe.1 _ ⟨some (Node.mk "" [("_etcd", Node.mk "" [])])⟩
    (Node.mk "" [("_etcd", Node.mk "" [])]) (Node.mk "" []) rfl rfl rfl

/-- C5 counterexample: a decodable snapshot whose root has no children
carries neither the snapshot marker nor (with an empty log) a matching set
command, so per the claim the inspector should report v1 — but the code
dereferences the nil `_etcd` pointer and panics instead. -/
theorem c5_counterexample :
    checkInternalVersionByDataDir4
      ⟨SnapResult.snap (Except.ok ⟨some (Node.mk "" [])⟩), Except.ok []⟩ = Res4.panicked ∧
    Res4.panicked ≠ Res4.ok internalV1 :=
  ⟨rfl, by decide⟩

/-- C5 (amended): for a legacy directory, the migration inspector reports
v2 when the decoded snapshot holds `_etcd/next-internal-version = "2"`, or
— when the snapshot stage falls through — when the log holds a matching set
command; it reports v1 when the log holds none; decode errors at either
stage surface as errors, and the resolver degrades them to v1 — all
provided any decoded snapshot's root carries an `_etcd` child (a decodable
snapshot without one makes the inspector panic on a nil dereference
instead). -/
theorem c5_migration_inspector :
    (∀ (dd : DataDir4) (st : Store4) (root dir n : Node),
      dd.snap = SnapResult.snap (Except.ok st) → st.root = some root →
      lookupChild root "_etcd" = some dir →
      lookupChild dir "next-internal-version" = some n → n.value = "2" →
      checkInternalVersionByDataDir4 dd = Res4.ok internalV2) ∧
    (∀ (dd : DataDir4) (pre : List Cmd) (post ents : List (Except String Cmd)),
      snapVerdict dd.snap = SnapVerdict.fallThrough →
      dd.log = Except.ok ents →
      ents = pre.map Except.ok ++ Except.ok (Cmd.set "/_etcd/next-internal-version" "2") :: post →
      (∀ c ∈ pre, cmdMatches c = false) →
      checkInternalVersionByDataDir4 dd = Res4.ok internalV2) ∧
    (∀ (dd : DataDir4) (cs : List Cmd),
      snapVerdict dd.snap = SnapVerdict.fallThrough →
      dd.log = Except.ok (cs.map Except.ok) →
      (∀ c ∈ cs, cmdMatches c = false) →
      checkInternalVersionByDataDir4 dd = Res4.ok internalV1) ∧
    (∀ (dd : DataDir4) (e : String),
      dd.snap = SnapResult.decodeErr e ∨ dd.snap = SnapResult.snap (Except.error e) →
      checkInternalVersionByDataDir4 dd = Res4.err e) ∧
    (∀ (dd : DataDir4) (e : String),
      snapVerdict dd.snap = SnapVerdict.fallThrough →
      dd.log = Except.error e →
      checkInternalVersionByDataDir4 dd = Res4.err e) ∧
    (∀ (fs : FlagSet) (w : World) (e : String),
      hasV2SpecialFlag fs = false → fs.dataDir ≠ "" →
      w.detect = Except.ok WalVersion.WALv0_4 →
      (w.standby = StandbyDecode.errNotExist ∨ w.standby = StandbyDecode.ok none ∨
        (∃ si, w.standby = StandbyDecode.ok (some si) ∧ si.running = false)) →
      checkInternalVersionByDataDir4 w.dd4 = Res4.err e →
      checkInternalVersion fs w = CheckResult.ok internalV1 noEffects) := by
  refine ⟨?_, ?_, ?_, ?_, ?_, ?_⟩
  · intro dd st root dir n hsnap hroot hdir hn hval
    unfold checkInternalVersionByDataDir4
    rw [hsnap]
    simp [snapVerdict, hroot, hdir, hn, hval]
  · intro dd pre post ents hsv hlog hents hpre
    unfold checkInternalVersionByDataDir4
    rw [hsv, hlog, hents]
    clear hents hlog hsv
    induction pre with
    | nil => simp [checkLog, scanCmds, cmdMatches]
    | cons c cs ih =>
      have hc := hpre c (by simp)
      simpa [checkLog, scanCmds, hc] using ih (fun x hx => hpre x (by simp [hx]))
  · intro dd cs hsv hlog hcs
    unfold checkInternalVersionByDataDir4
    rw [hsv, hlog]
    clear hlog hsv
    induction cs with
    | nil => simp [checkLog, scanCmds]
    | cons c rest ih =>
      have hc := hcs c (by simp)
      simpa [checkLog, scanCmds, hc] using ih (fun x hx => hcs x (by simp [hx]))
  · intro dd e h
    unfold checkInternalVersionByDataDir4
    rcases h with h | h <;> rw [h] <;> simp [snapVerdict]
  · intro dd e hsv hlog
    unfold checkInternalVersionByDataDir4
    rw [hsv, hlog]
    simp [checkLog]
  · intro fs w e h0 h1 hd hs he
    simp only [checkInternalVersion, h0, Bool.false_eq_true, if_false, h1, if_neg h1, hd]
    rcases hs with hs | hs | ⟨si, hs, hrun⟩
    · simp [hs, v04NonStandby, he]
    · simp [hs, v04NonStandby, he]
    · simp [hs, hrun, v04NonStandby, he]

/-- C5 witness: concrete instances of every part of the amended claim — a
snapshot carrying the marker, a log carrying the marker behind a skipped
command, a markerless log, both decode-error shapes, and the resolver
degrading an inspector error to v1. -/
theorem c5_migration_inspector_witness :
    checkInternalVersionByDataDir4
      ⟨SnapResult.snap (Except.ok ⟨some (Node.mk ""
        [("_etcd", Node.mk "" [("next-internal-version", Node.mk "2" [])])])⟩), Except.ok []⟩ =
      Res4.ok internalV2 ∧
    checkInternalVersionByDataDir4
      ⟨SnapResult.noSnap,
       Except.ok [Except.ok Cmd.other, Except.ok (Cmd.set "/_etcd/next-internal-version" "2")]⟩ =
      Res4.ok internalV2 ∧
    checkInternalVersionByDataDir4
      ⟨SnapResult.noSnap, Except.ok [Except.ok (Cmd.set "/a" "1")]⟩ = Res4.ok internalV1 ∧
    checkInternalVersionByDataDir4 ⟨SnapResult.decodeErr "snapshot corrupt", Except.ok []⟩ =
      Res4.err "snapshot corrupt" ∧
    checkInternalVersionByDataDir4 ⟨SnapResult.noSnap, Except.error "log corrupt"⟩ =
      Res4.err "log corrupt" ∧
    checkInternalVersion (plainFS "d" "" "")
      ⟨Except.ok WalVersion.WALv0_4, StandbyDecode.errNotExist,
       ⟨SnapResult.decodeErr "snapshot corrupt", Except.ok []⟩,
       fun _ => none, fun _ => VersionResp.reqErr, fun _ => none,
       fun _ => Except.error "x", false⟩ = CheckResult.ok internalV1 noEffects := by
  refine ⟨?_, ?_, ?_, ?_, ?_, ?_⟩
  · exact c5_migration_inspector.1 _ _ _ _ _ rfl rfl rfl rfl rfl
  · exact c5_migration_inspector.2.1 _ [Cmd.other] [] _ rfl rfl rfl (by decide)
  · exact c5_migration_inspector.2.2.1 _ [Cmd.set "/a" "1"] rfl rfl (by decide)
  · exact c5_migration_inspector.2.2.2.1 _ _ (Or.inl rfl)
  · exact c5_migration_inspector.2.2.2.2.1 _ _ rfl rfl
  · exact c5_migration_inspector.2.2.2.2.2 _ _ "snapshot corrupt" (by decide) (by decide)
      rfl (Or.inl rfl) rfl

/-- Skipping uninformative candidates: the scan over `pre ++ u :: post`
returns the version of `u` when everything before it is uninformative. -/
theorem scanVersions_first (w : World) (pre post : List String) (u : String)
    (v : InternalVersion)
    (hpre : ∀ x ∈ pre, informativeOf (w.versionResp (x ++ "/version")) = none)
    (hu : informativeOf (w.versionResp (u ++ "/version")) = some v) :
    scanVersions w (pre ++ u :: post) = some v := by
  induction pre with
  | nil => simp [scanVersions, hu]
  | cons x rest ih =>
    have hx := hpre x (by simp)
    simp only [List.cons_append, scanVersions, hx]
    exact ih (fun y hy => hpre y (by simp [hy]))

/-- A world whose candidate `http://a` errors, `http://b` reports the
unrecognized internal version `"bogus"`, and `http://c` reports `"1"`. -/
def probeWorldABC : World :=
  ⟨.ok .WALNotExist, .errNotExist, emptyDD4, fun _ => none,
   fun url =>
     if url = "http://b/version" then .fields "bogus"
     else if url = "http://c/version" then .fields "1" else .reqErr,
   fun _ => none, fun _ => .error "x", false⟩

/-- C4: the peer probe scans candidates in order and returns the version of
the first candidate whose `/version` answer carries internalVersion `"1"`
or `"2"`; candidates that error, are unparsable, or report any other value
are skipped without aborting.  In particular, for candidates
`[A(error), B("bogus"), C("1")]` the probe returns v1. -/
theorem c4_probe_first_informative :
    (∀ (w : World) (tls : TLSInfo) (pre post : List String) (u : String)
       (v : InternalVersion),
      w.clientErr tls = none →
      (∀ x ∈ pre, informativeOf (w.versionResp (x ++ "/version")) = none) →
      informativeOf (w.versionResp (u ++ "/version")) = some v →
      checkInternalVersionByClientURLs w (pre ++ u :: post) tls = Except.ok v) ∧
    checkInternalVersionByClientURLs probeWorldABC ["http://a", "http://b", "http://c"]
      tlsEmpty = Except.ok internalV1 := by
  constructor
  · intro w tls pre post u v hc hpre hu
    unfold checkInternalVersionByClientURLs
    rw [hc, scanVersions_first w pre post u v hpre hu]
  · rfl

/-- C4 witness: the general statement applied to the concrete candidate
list `[A(error), B("bogus"), C("1")]` yields v1. -/
theorem c4_probe_first_informative_witness :
    checkInternalVersionByClientURLs probeWorldABC ["http://a", "http://b", "http://c"]
      tlsEmpty = Except.ok internalV1 :=
  c4_probe_first_informative.1 probeWorldABC tlsEmpty ["http://a", "http://b"] []
    "http://c" internalV1 rfl (by decide) (by decide)

/-- A scan over only uninformative candidates produces nothing. -/
theorem scanVersions_none (w : World) (urls : List String)
    (h : ∀ u ∈ urls, informativeOf (w.versionResp (u ++ "/version")) = none) :
    scanVersions w urls = none := by
  induction urls with
  | nil => rfl
  | cons u rest ih =>
    have hu := h u (by simp)
    simp only [scanVersions, hu]
    exact ih (fun x hx => h x (by simp [hx]))

/-- Every member of a list occurs inside its space-separated rendering. -/
theorem sepSpace_contains (l : List String) (u : String) (hu : u ∈ l) :
    ∃ a b, (sepSpace l).data = a ++ u.data ++ b := by
  induction l with
  | nil => cases hu
  | cons x rest ih =>
    cases rest with
    | nil =>
      have hx : u = x := by simpa using hu
      exact ⟨[], [], by simp [sepSpace, hx]⟩
    | cons y ys =>
      rcases List.mem_cons.mp hu with h | h
      · refine ⟨[], (" " ++ sepSpace (y :: ys)).data, ?_⟩
        subst h
        simp [sepSpace, String.data_append, List.append_assoc]
      · obtain ⟨a, b, hab⟩ := ih h
        refine ⟨x.data ++ " ".data ++ a, b, ?_⟩
        simp [sepSpace, String.data_append, hab, List.append_assoc]

/-- A world with a legacy data directory whose standby marker declares
running, but no reachable peer. -/
def standbyWorldNoNet : World :=
  ⟨.ok .WALv0_4, .ok (some ⟨true, ["http://s1:4001"], "node1=http://s1:7001"⟩), emptyDD4,
   fun _ => none, fun _ => .reqErr, fun _ => none, fun _ => .error "x", true⟩

/-- C6: when every candidate is exhausted without an informative answer the
probe fails with the message naming all attempted URLs (each attempted URL
occurs inside the message), and the resolver degrades per the invoking
branch: the absent-data-directory branch to v2, the running-standby legacy
branch to v1. -/
theorem c6_probe_exhaustion_degrades :
    (∀ (w : World) (tls : TLSInfo) (urls : List String),
      w.clientErr tls = none →
      (∀ u ∈ urls, informativeOf (w.versionResp (u ++ "/version")) = none) →
      checkInternalVersionByClientURLs w urls tls = Except.error (failedMsg urls)) ∧
    (∀ (urls : List String) (u : String), u ∈ urls →
      ∃ a b, (failedMsg urls).data = a ++ u.data ++ b) ∧
    (∀ (fs : FlagSet) (w : World) (e : String),
      hasV2SpecialFlag fs = false → fs.dataDir ≠ "" →
      w.detect = Except.ok WalVersion.WALNotExist →
      checkInternalVersionByClientURLs w (absentBranchURLs fs w) (clientTLSInfo fs) =
        Except.error e →
      checkInternalVersion fs w = CheckResult.ok internalV2 noEffects) ∧
    (∀ (fs : FlagSet) (w : World) (si : StandbyInfo) (e : String),
      hasV2SpecialFlag fs = false → fs.dataDir ≠ "" →
      w.detect = Except.ok WalVersion.WALv0_4 →
      w.standby = StandbyDecode.ok (some si) → si.running = true →
      checkInternalVersionByClientURLs w si.clientURLs (clientTLSInfo fs) =
        Except.error e →
      checkInternalVersion fs w = CheckResult.ok internalV1 noEffects) := by
  refine ⟨?_, ?_, ?_, ?_⟩
  · intro w tls urls hc h
    unfold checkInternalVersionByClientURLs
    rw [hc, scanVersions_none w urls h]
  · intro urls u hu
    obtain ⟨a, b, hab⟩ := sepSpace_contains urls u hu
    refine ⟨("failed to get version from urls " ++ "[").data ++ a, b ++ "]".data, ?_⟩
    simp [failedMsg, goFormatStrSlice, String.data_append, hab, List.append_assoc]
  · intro fs w e h0 h1 hd hp
    simp [checkInternalVersion, h0, h1, hd, hp]
  · intro fs w si e h0 h1 hd hs hrun hp
    simp [checkInternalVersion, h0, h1, hd, hs, hrun, hp]

/-- C6 witness: two unreachable candidates produce the exact
all-URLs-exhausted error and the first URL occurs inside it; a peerless
absent-directory world resolves to v2; an unreachable running-standby world
resolves to v1. -/
theorem c6_probe_exhaustion_degrades_witness :
    checkInternalVersionByClientURLs baseWorld ["http://u1:4001", "http://u2:4001"] tlsEmpty =
      Except.error (failedMsg ["http://u1:4001", "http://u2:4001"]) ∧
    (∃ a b, (failedMsg ["http://u1:4001", "http://u2:4001"]).data =
      a ++ "http://u1:4001".data ++ b) ∧
    checkInternalVersion (plainFS "d" "" "") baseWorld = CheckResult.ok internalV2 noEffects ∧
    checkInternalVersion (plainFS "d" "" "") standbyWorldNoNet =
      CheckResult.ok internalV1 noEffects :=
  ⟨c6_probe_exhaustion_degrades.1 baseWorld tlsEmpty _ rfl (by decide),
   c6_probe_exhaustion_degrades.2.1 _ "http://u1:4001" (by decide),
   c6_probe_exhaustion_degrades.2.2.1 (plainFS "d" "" "") baseWorld (failedMsg [])
     (by decide) (by decide) rfl rfl,
   c6_probe_exhaustion_degrades.2.2.2 (plainFS "d" "" "") standbyWorldNoNet
     ⟨true, ["http://s1:4001"], "node1=http://s1:7001"⟩ (failedMsg ["http://s1:4001"])
     (by decide) (by decide) rfl rfl rfl rfl⟩

/-- The probe over an empty candidate list always fails. -/
theorem probe_nil_fails (w : World) (tls : TLSInfo) :
    ∃ e, checkInternalVersionByClientURLs w [] tls = Except.error e := by
  unfold checkInternalVersionByClientURLs
  cases h : w.clientErr tls with
  | some e => exact ⟨e, by simp [h]⟩
  | none => exact ⟨failedMsg [], by simp [h, scanVersions]⟩

/-- C7: with no v2-only key set, a configured data directory classified as
absent, no discovery URL and an empty static peers flag, resolution yields
v2.  (The empty peers flag still produces the one degenerate candidate
`<scheme>://`, whose hostless `/etcdURL` fetch fails — the hypothesis on
`etcdURLResp` records that stdlib behavior — leaving the probe with no
client URL at all.) -/
theorem c7_absent_empty_config (fs : FlagSet) (w : World)
    (h0 : hasV2SpecialFlag fs = false) (h1 : fs.dataDir ≠ "")
    (hd : w.detect = Except.ok WalVersion.WALNotExist)
    (hdisc : fs.discovery = "") (hpeers : fs.peers = "")
    (hurl : w.etcdURLResp ((peerTLSInfo fs).scheme ++ "://" ++ "/etcdURL") = none) :
    checkInternalVersion fs w = CheckResult.ok internalV2 noEffects := by
  have hsplit : trimSplit "" = [""] := rfl
  have hurls : absentBranchURLs fs w = [] := by
    unfold absentBranchURLs getClientURLsByPeerURLs
    cases hc : w.clientErr (peerTLSInfo fs) with
    | some e => simp [hc]
    | none =>
      simp [hc, getPeersFromDiscoveryURL, hdisc, hpeers, getPeersFromPeersFlag, hsplit,
        String.append_empty, hurl]
  obtain ⟨e, he⟩ := probe_nil_fails w (clientTLSInfo fs)
  simp [checkInternalVersion, h0, h1, hd, hurls, he]

/-- C7 witness: a brand-new node (absent data in `data`, no discovery, no
peers, unreachable network) resolves to v2. -/
theorem c7_absent_empty_config_witness :
    checkInternalVersion (plainFS "data" "" "") baseWorld =
      CheckResult.ok internalV2 noEffects :=
  c7_absent_empty_config (plainFS "data" "" "") baseWorld (by decide) (by decide)
    rfl rfl rfl rfl

/-- C8 counterexample: a data-directory classification error — a failing
`wal.DetectVersion`, e.g. an unreadable directory — is not converted into a
degraded epoch: `log.Fatalf` terminates the process. -/
theorem c8_counterexample :
    checkInternalVersion (plainFS "d" "" "")
      ⟨Except.error "permission denied", .errNotExist, emptyDD4, fun _ => none,
       fun _ => .reqErr, fun _ => none, fun _ => .error "x", false⟩ =
      CheckResult.fatal
        "etcd-starter: failed to detect etcd version in d: permission denied" ∧
    (∀ v eff, CheckResult.fatal
        "etcd-starter: failed to detect etcd version in d: permission denied" ≠
      CheckResult.ok v eff) :=
  ⟨rfl, by intro v eff h; cases h⟩

/-- C8 (amended): when the data-directory classifier itself succeeds — its
error is fatal via `log.Fatalf`, alongside configuration-parse and exec
failures — and the legacy inspector does not hit its nil-dereference panic,
every other failure (standby decode, snapshot/log decode, discovery and
network errors) is converted into a degraded epoch: resolution always
returns a version. -/
theorem c8_errors_degrade (fs : FlagSet) (w : World) (dv : WalVersion)
    (hd : w.detect = Except.ok dv)
    (hnp : checkInternalVersionByDataDir4 w.dd4 ≠ Res4.panicked) :
    ∃ v eff, checkInternalVersion fs w = CheckResult.ok v eff := by
  by_cases h0 : hasV2SpecialFlag fs
  · exact ⟨internalV2, noEffects, by simp [checkInternalVersion, h0]⟩
  by_cases h1 : fs.dataDir = ""
  · exact ⟨internalV2, noEffects, by simp [checkInternalVersion, h0, h1]⟩
  have hns : ∃ v, v04NonStandby w = CheckResult.ok v noEffects := by
    unfold v04NonStandby
    cases hr : checkInternalVersionByDataDir4 w.dd4 with
    | panicked => exact absurd hr hnp
    | err e => exact ⟨internalV1, rfl⟩
    | ok v => exact ⟨v, rfl⟩
  obtain ⟨vns, hvns⟩ := hns
  cases dv with
  | WALv2_0 => exact ⟨internalV2, noEffects, by simp [checkInternalVersion, h0, h1, hd]⟩
  | WALv2_0_1 => exact ⟨internalV2, noEffects, by simp [checkInternalVersion, h0, h1, hd]⟩
  | WALv2_0Proxy =>
    exact ⟨internalV2Proxy, noEffects, by simp [checkInternalVersion, h0, h1, hd]⟩
  | WALUnknown => exact ⟨internalV2, noEffects, by simp [checkInternalVersion, h0, h1, hd]⟩
  | WALNotExist =>
    cases hp : checkInternalVersionByClientURLs w (absentBranchURLs fs w) (clientTLSInfo fs) with
    | error e =>
      exact ⟨internalV2, noEffects, by simp [checkInternalVersion, h0, h1, hd, hp]⟩
    | ok v => exact ⟨v, noEffects, by simp [checkInternalVersion, h0, h1, hd, hp]⟩
  | WALv0_4 =>
    cases hs : w.standby with
    | errOther e =>
      exact ⟨internalV1, noEffects, by simp [checkInternalVersion, h0, h1, hd, hs]⟩
    | errNotExist => exact ⟨vns, noEffects, by simp [checkInternalVersion, h0, h1, hd, hs, hvns]⟩
    | ok osi =>
      cases osi with
      | none => exact ⟨vns, noEffects, by simp [checkInternalVersion, h0, h1, hd, hs, hvns]⟩
      | some si =>
        by_cases hrun : si.running
        · cases hp : checkInternalVersionByClientURLs w si.clientURLs (clientTLSInfo fs) with
          | error e =>
            exact ⟨internalV1, noEffects,
              by simp [checkInternalVersion, h0, h1, hd, hs, hrun, hp]⟩
          | ok v =>
            by_cases hv2 : v = internalV2
            · exact ⟨internalV2Proxy, ⟨true, ["-initial-cluster", si.initialCluster]⟩,
                by simp [checkInternalVersion, h0, h1, hd, hs, hrun, hp, hv2]⟩
            · exact ⟨v, noEffects,
                by simp [checkInternalVersion, h0, h1, hd, hs, hrun, hp, hv2]⟩
        · exact ⟨vns, noEffects, by simp [checkInternalVersion, h0, h1, hd, hs, hrun, hvns]⟩

/-- C8 witness: a world whose classifier answers and whose inspector cannot
panic resolves to some version even though every decoder and the whole
network fail. -/
theorem c8_errors_degrade_witness :
    ∃ v eff, checkInternalVersion (plainFS "dir" "" "")
      ⟨Except.ok WalVersion.WALv0_4, StandbyDecode.errOther "standby corrupt",
       ⟨SnapResult.decodeErr "snapshot corrupt", Except.error "log corrupt"⟩,
       fun _ => none, fun _ => VersionResp.reqErr, fun _ => none,
       fun _ => Except.error "discovery down", false⟩ = CheckResult.ok v eff :=
  c8_errors_degrade _ _ WalVersion.WALv0_4 rfl (by decide)

/-- A world for a legacy directory in running standby mode whose recorded
client URL reports internal version `"2"`; the standby-info file exists on
disk. -/
def standbyV2World : World :=
  ⟨.ok .WALv0_4, .ok (some ⟨true, ["http://10.0.0.1:4001"], "node1=http://10.0.0.1:7001"⟩),
   emptyDD4, fun _ => none,
   fun url => if url = "http://10.0.0.1:4001/version" then .fields "2" else .reqErr,
   fun _ => none, fun _ => .error "x", true⟩

/-- C2: for a running legacy standby whose peer reports internal version
`"2"`, resolution yields v2-proxy and the discovery environment variable is
cleared (`eff.unsetDiscovery`), but the `-initial-cluster` pair is appended
to the starter's own `os.Args` (recorded in `eff.osArgsAppended`), which
the exec does not read: the exec'd argument vector carries `-proxy=on` and
no `-initial-cluster`. -/
theorem c2_standby_v2_handoff :
    startDesiredVersion "bin" ["-data-dir", "d"] (Except.ok (plainFS "d" "" ""))
      standbyV2World =
      StartResult.exec "bin/2/etcd" ["bin/2/etcd", "-data-dir", "d", "-proxy=on"] false
        ⟨true, ["-initial-cluster", "node1=http://10.0.0.1:7001"]⟩ ∧
    "-initial-cluster" ∉ ["bin/2/etcd", "-data-dir", "d", "-proxy=on"] :=
  ⟨rfl, by decide⟩

/-- C3: when the data directory is classified as the current-format proxy
variant, resolution yields v2-proxy and `-proxy=on` is always injected —
with the standby marker present as well as absent — while the
"detected standby_info file" diagnostic is printed exactly when `os.Stat`
on the marker fails, i.e. when the marker is absent. -/
theorem c3_proxy_flag_always_diag_inverted :
    (startDesiredVersion "bin" [] (Except.ok (plainFS "d" "" ""))
      ⟨.ok .WALv2_0Proxy, .errNotExist, emptyDD4, fun _ => none, fun _ => .reqErr,
       fun _ => none, fun _ => .error "x", true⟩ =
      StartResult.exec "bin/2/etcd" ["bin/2/etcd", "-proxy=on"] false noEffects) ∧
    (startDesiredVersion "bin" [] (Except.ok (plainFS "d" "" ""))
      ⟨.ok .WALv2_0Proxy, .errNotExist, emptyDD4, fun _ => none, fun _ => .reqErr,
       fun _ => none, fun _ => .error "x", false⟩ =
      StartResult.exec "bin/2/etcd" ["bin/2/etcd", "-proxy=on"] true noEffects) :=
  ⟨rfl, rfl⟩

end EtcdStarter
